import Mathlib

/-!
Shallow embedding of the CPU softmax / log-softmax orchestration operator
(`CpuSoftmaxGeneric<IS_LOG>` declared in
`src/src/runtime/cpu/operators/CpuSoftmax.h`).

The repository contains only the class declaration (the header); the bodies
of `validate`, `configure`, `run` and `workspace` are not part of the
sources, so they are modelled here from the specification of the
orchestration layer (AxisNormalizer / LayoutPermuter / MaxReducer /
NormalizationKernel), faithfully to its words.
-/

namespace CpuSoftmax

/-- Element types of the descriptor contract: 8-bit unsigned quantized,
8-bit signed quantized, 16-bit float, 32-bit float
(QASYMM8 / QASYMM8_SIGNED / F16 / F32 in the header). -/
inductive DataType where
  | QASYMM8
  | QASYMM8_SIGNED
  | F16
  | F32
deriving DecidableEq, Repr

/-- Whether the element type is a quantized type. -/
def DataType.isQuantized : DataType → Bool
  | .QASYMM8 => true
  | .QASYMM8_SIGNED => true
  | .F16 => false
  | .F32 => false

/-- Whether the element type is a floating type. -/
def DataType.isFloat : DataType → Bool
  | .QASYMM8 => false
  | .QASYMM8_SIGNED => false
  | .F16 => true
  | .F32 => true

/-- Element size in bytes, used for workspace byte sizes. -/
def DataType.elementSize : DataType → Nat
  | .QASYMM8 => 1
  | .QASYMM8_SIGNED => 1
  | .F16 => 2
  | .F32 => 4

/-- Tensor descriptor (`ITensorInfo`): element type plus shape as the
ordered sequence of per-dimension extents; dimension 0 is the leading
dimension, strides are implied by the shape. -/
structure TensorInfo where
  dataType : DataType
  shape : List Nat
deriving DecidableEq, Repr

/-- Rank of a descriptor: number of dimensions of its shape. -/
def TensorInfo.rank (t : TensorInfo) : Nat := t.shape.length

/-- Modelled from the spec: two descriptors are type-compatible if
quantized types match exactly or both are floating types of any width in
the supported set. -/
def typeCompatible (a b : TensorInfo) : Bool :=
  (a.dataType.isQuantized && decide (a.dataType = b.dataType)) ||
  (a.dataType.isFloat && b.dataType.isFloat)

/-- The scaling factor `beta` is an IEEE `float` in the header; it is
modelled as either a finite rational value or one of the non-finite
float classes, which is all the validation path distinguishes. -/
inductive FloatVal where
  | finite (x : ℚ)
  | posInf
  | negInf
  | nan
deriving DecidableEq, Repr

/-- A float value is finite exactly when it is neither an infinity nor NaN. -/
def FloatVal.isFinite : FloatVal → Bool
  | .finite _ => true
  | _ => false

/-- Real value of a float, junk 0 on the non-finite classes (the run path
is only specified for validated, hence finite, `beta`). -/
def FloatVal.toReal : FloatVal → ℝ
  | .finite x => (x : ℝ)
  | _ => 0

/-- Reasons of the structured configuration-error status: type mismatch,
shape mismatch, invalid axis, unsupported type, sub-kernel rejection,
beta non-finite. -/
inductive ErrorReason where
  | typeMismatch
  | shapeMismatch
  | invalidAxis
  | unsupportedType
  | subKernelRejection
  | betaNonFinite
deriving DecidableEq, Repr

/-- Structured status returned by `validate`: OK or an error reason. -/
inductive Status where
  | OK
  | error (r : ErrorReason)
deriving DecidableEq, Repr

/-- Modelled from the spec: the static `CpuSoftmaxGeneric::validate`
(its body is not in the sources).  Pure re-check of every `configure`
precondition: the axis is a valid zero-based index into the source shape,
source and destination are type-compatible, the destination shape exactly
equals the source shape, and `beta` is finite.  Every member of the
`DataType` enumeration is a supported element type, so no separate
unsupported-type rejection arises on well-typed descriptors. -/
def softmaxValidate (isLog : Bool) (src dst : TensorInfo) (beta : FloatVal)
    (axis : Int) : Status :=
  let _ := isLog
  if ¬ (0 ≤ axis ∧ axis < (src.rank : Int)) then .error .invalidAxis
  else if ¬ typeCompatible src dst then .error .typeMismatch
  else if src.shape ≠ dst.shape then .error .shapeMismatch
  else if ¬ beta.isFinite then .error .betaNonFinite
  else .OK

/-- Value at index `a` and `b` swapped, identity elsewhere: the action of
the single transposition `swap(a, b)` on dimension indices. -/
def swapVal (a b j : Nat) : Nat :=
  if j = a then b else if j = b then a else j

/-- The permutation vector that swaps dimension 0 and dimension `axis`:
entry `j` holds the source dimension placed at position `j`. -/
def permVec (rank axis : Nat) : List Nat :=
  (List.range rank).map (swapVal 0 axis)

/-- Apply a permutation vector to a shape: the new extent at position `j`
is the old extent at position `p[j]`. -/
def applyPermList (p : List Nat) (l : List Nat) : List Nat :=
  p.map fun i => l.getD i 0

/-- Configuration state owned by a configured operator instance: the
variant flag, `beta`, the validated axis, the derived `needs_permute`,
the permutation vectors handed to the input-side and output-side
permuter, the max-buffer descriptor, and the conditionally existing
permuted-input/permuted-output descriptors. -/
structure ConfiguredState where
  isLog : Bool
  beta : FloatVal
  axis : Nat
  needsPermute : Bool
  permVectorInput : List Nat
  permVectorOutput : List Nat
  maxInfo : TensorInfo
  inputPermuted : Option TensorInfo
  outputPermuted : Option TensorInfo
deriving DecidableEq, Repr

/-- The configuration state `configure` builds on success: `needs_permute`
iff `axis != 0`, the permutation vector `swap(0, axis)` handed to both
permuters, the max descriptor from the permuted source shape with
dimension 0 collapsed to extent 1, and the permuted descriptors existing
only when a permute is needed. -/
def configuredStateOf (isLog : Bool) (src dst : TensorInfo) (beta : FloatVal)
    (axis : Int) : ConfiguredState :=
  let ax : Nat := axis.toNat
  let np : Bool := decide (ax ≠ 0)
  let p : List Nat := permVec src.rank ax
  let permutedSrcShape : List Nat := applyPermList p src.shape
  { isLog := isLog
    beta := beta
    axis := ax
    needsPermute := np
    permVectorInput := p
    permVectorOutput := p
    maxInfo := ⟨src.dataType, permutedSrcShape.set 0 1⟩
    inputPermuted :=
      if np then some ⟨src.dataType, permutedSrcShape⟩ else none
    outputPermuted :=
      if np then some ⟨dst.dataType, applyPermList p dst.shape⟩ else none }

/-- Modelled from the spec: `CpuSoftmaxGeneric::configure` (its body is
not in the sources).  Re-checks the shared preconditions through the same
pure function as `validate` and on success builds `configuredStateOf`.
The returned pair of descriptors models the caller-visible `src` and
`dst` descriptors after the call (`src` is taken through a const pointer
and never written). -/
def softmaxConfigure (isLog : Bool) (src dst : TensorInfo) (beta : FloatVal)
    (axis : Int) : Except Status (ConfiguredState × TensorInfo × TensorInfo) :=
  match softmaxValidate isLog src dst beta axis with
  | .error r => .error (.error r)
  | .OK => .ok (configuredStateOf isLog src dst beta axis, src, dst)

/-- Whether `configure` reaches its success branch. -/
def configureSucceeds (isLog : Bool) (src dst : TensorInfo) (beta : FloatVal)
    (axis : Int) : Bool :=
  match softmaxConfigure isLog src dst beta axis with
  | .ok _ => true
  | .error _ => false

/-- Auxiliary-buffer roles of the workspace contract. -/
inductive WorkspaceRole where
  | MaxBuf
  | PermutedInput
  | PermutedOutput
deriving DecidableEq, Repr

/-- One workspace requirement: role, byte size, minimum alignment. -/
structure MemRequirement where
  role : WorkspaceRole
  size : Nat
  alignment : Nat
deriving DecidableEq, Repr

/-- Byte size implied by a descriptor: product of extents times element
size. -/
def byteSize (t : TensorInfo) : Nat :=
  t.dataType.elementSize * t.shape.prod

/-- Minimum alignment suitable for vectorized access (one fixed value for
every requirement; the spec does not fix the number). -/
def vectorAlignment : Nat := 16

/-- Modelled from the spec: `CpuSoftmaxGeneric::workspace` (its body is
not in the sources).  Reports the max-buffer requirement always, and the
permuted-input / permuted-output requirements exactly when the
configuration owns those descriptors (iff `needs_permute`). -/
def softmaxWorkspace (st : ConfiguredState) : List MemRequirement :=
  ⟨.MaxBuf, byteSize st.maxInfo, vectorAlignment⟩ ::
    ((st.inputPermuted.map fun t =>
        MemRequirement.mk .PermutedInput (byteSize t) vectorAlignment).toList ++
     (st.outputPermuted.map fun t =>
        MemRequirement.mk .PermutedOutput (byteSize t) vectorAlignment).toList)

/-- `workspace` as an operation on the instance: it is a `const` member in
the header, so it returns the requirements and leaves the configuration
state untouched. -/
def softmaxWorkspaceCall (st : ConfiguredState) :
    List MemRequirement × ConfiguredState :=
  (softmaxWorkspace st, st)

/-- Runtime tensor bound at `run` time: a shape and the element values,
indexed by a multi-index given as a function from dimension position to
coordinate. -/
structure Tensor where
  shape : List Nat
  data : (Nat → Nat) → ℝ

/-- Multi-index update: coordinate at dimension `k` replaced by `v`. -/
def setIdx (idx : Nat → Nat) (k v : Nat) : Nat → Nat :=
  fun j => if j = k then v else idx j

/-- Action of a permutation vector on a multi-index: the coordinate fed to
source dimension `j` is the coordinate of the target position holding it.
The only vector ever configured is the self-inverse transposition
`swap(0, axis)`, for which this composition is its own inverse. -/
def permIdx (p : List Nat) (idx : Nat → Nat) : Nat → Nat :=
  fun j => idx (p.getD j j)

/-- Modelled from the spec: the external transpose primitive wrapped by
`LayoutPermuter` (`CpuPermute`, not in the sources): reorders dimensions
by the permutation vector without changing element values. -/
def permuteRun (p : List Nat) (t : Tensor) : Tensor :=
  ⟨applyPermList p t.shape, fun idx => t.data (permIdx p idx)⟩

/-- Maximum of `f 0, ..., f (n-1)` (junk `f 0` when `n = 0`). -/
def maxOver (n : Nat) (f : Nat → ℝ) : ℝ :=
  (List.range n).foldl (fun a i => max a (f i)) (f 0)

/-- Modelled from the spec: the external per-axis-0-vector maximum kernel
wrapped by `MaxReducer` (`CpuLogits1DMaxKernel`, not in the sources):
for every combination of the non-reduced dimensions, the maximum element
value across dimension 0; output shape has dimension 0 collapsed to 1. -/
def maxReduceRun (t : Tensor) : Tensor :=
  ⟨t.shape.set 0 1, fun idx =>
    maxOver (t.shape.getD 0 0) fun i => t.data (setIdx idx 0 i)⟩

/-- Modelled from the spec: the external fused exponentiate-and-normalize
kernel wrapped by `NormalizationKernel`
(`CpuLogits1DSoftmaxKernel<IS_LOG>`, not in the sources), along axis 0:
softmax `exp((x - m) * beta) / sum_i exp((x_i - m) * beta)`, log-softmax
`(x - m) * beta - log(sum_i exp((x_i - m) * beta))`, with `m` the
precomputed per-vector maximum. -/
noncomputable def normalizeRun (isLog : Bool) (beta : ℝ) (t mx : Tensor) : Tensor :=
  ⟨t.shape, fun idx =>
    let n := t.shape.getD 0 0
    let m := mx.data (setIdx idx 0 0)
    let s := ∑ i ∈ Finset.range n, Real.exp ((t.data (setIdx idx 0 i) - m) * beta)
    if isLog then (t.data idx - m) * beta - Real.log s
    else Real.exp ((t.data idx - m) * beta) / s⟩

/-- The pipeline steps `run` can execute, in the order it executes them. -/
inductive RunStep where
  | permuteInput
  | maxReduceStep
  | normalizeStep
  | permuteOutput
deriving DecidableEq, Repr

/-- Modelled from the spec: `CpuSoftmaxGeneric::run` (its body is not in
the sources), returning the destination tensor together with the trace of
executed pipeline steps: permute the source iff `needs_permute`,
max-reduce over axis 0 of the (possibly permuted) source, normalize into
the (possibly permuted) output, permute back into `dst` iff
`needs_permute`. -/
noncomputable def softmaxRunT (st : ConfiguredState) (src : Tensor) : Tensor × List RunStep :=
  let step1 : Tensor × List RunStep :=
    if st.needsPermute then (permuteRun st.permVectorInput src, [.permuteInput])
    else (src, [])
  let cur := step1.1
  let mx := maxReduceRun cur
  let outT := normalizeRun st.isLog st.beta.toReal cur mx
  let step4 : Tensor × List RunStep :=
    if st.needsPermute then (permuteRun st.permVectorOutput outT, [.permuteOutput])
    else (outT, [])
  (step4.1, step1.2 ++ [.maxReduceStep, .normalizeStep] ++ step4.2)

/-- The destination tensor produced by `run`. -/
noncomputable def softmaxRun (st : ConfiguredState) (src : Tensor) : Tensor :=
  (softmaxRunT st src).1

/-- The softmax / log-softmax formulas exactly as the specification states
them, along an arbitrary reduction axis of the unpermuted tensor: at
position `(i, rest)` along the reduced axis, with `m = max(rest)` the
per-vector maximum over the reduction axis,
softmax `exp((x - m) * beta) / sum_i exp((x_i - m) * beta)` and
log-softmax `(x - m) * beta - log(sum_i exp((x_i - m) * beta))`.
This definition follows the claim wording and is compared against the
permute / reduce / normalize / permute-back pipeline. -/
noncomputable def softmaxSpecFormula (isLog : Bool) (beta : ℝ) (axis : Nat) (t : Tensor) :
    Tensor :=
  ⟨t.shape, fun idx =>
    let n := t.shape.getD axis 0
    let m := maxOver n fun i => t.data (setIdx idx axis i)
    let s := ∑ i ∈ Finset.range n,
      Real.exp ((t.data (setIdx idx axis i) - m) * beta)
    if isLog then (t.data idx - m) * beta - Real.log s
    else Real.exp ((t.data idx - m) * beta) / s⟩

/-! ### Permutation algebra of the transposition `swap(0, axis)` -/

lemma swapVal_swapVal (a j : Nat) : swapVal 0 a (swapVal 0 a j) = j := by
  unfold swapVal; split_ifs <;> omega

lemma swapVal_eq_zero_iff (a j : Nat) : swapVal 0 a j = 0 ↔ j = a := by
  unfold swapVal; split_ifs <;> omega

lemma swapVal_lt (rank a j : Nat) (ha : a < rank) (hj : j < rank) :
    swapVal 0 a j < rank := by
  unfold swapVal; split_ifs <;> omega

lemma length_permVec (rank a : Nat) : (permVec rank a).length = rank := by
  simp [permVec]

lemma getD_permVec (rank a j : Nat) (h : j < rank) (d : Nat) :
    (permVec rank a).getD j d = swapVal 0 a j := by
  have hl : j < (permVec rank a).length := by
    simpa [length_permVec] using h
  rw [List.getD_eq_getElem _ d hl]
  simp [permVec]

lemma getD_permVec_self (rank a j : Nat) (ha : a < rank) :
    (permVec rank a).getD j j = swapVal 0 a j := by
  rcases lt_or_ge j rank with h | h
  · exact getD_permVec rank a j h j
  · have hout : (permVec rank a).length ≤ j := by
      simpa [length_permVec] using h
    rw [List.getD_eq_getElem?_getD, List.getElem?_eq_none hout, Option.getD_none]
    unfold swapVal; split_ifs <;> omega

lemma permIdx_permVec (rank a : Nat) (ha : a < rank) (idx : Nat → Nat) :
    permIdx (permVec rank a) idx = fun j => idx (swapVal 0 a j) := by
  funext j
  show idx ((permVec rank a).getD j j) = idx (swapVal 0 a j)
  rw [getD_permVec_self rank a j ha]

lemma setIdx_setIdx_same (idx : Nat → Nat) (k a b : Nat) :
    setIdx (setIdx idx k a) k b = setIdx idx k b := by
  funext j
  unfold setIdx
  split_ifs <;> rfl

lemma setIdx_comp_swap (a v : Nat) (idx : Nat → Nat) :
    (fun j => setIdx (fun i => idx (swapVal 0 a i)) 0 v (swapVal 0 a j)) =
      setIdx idx a v := by
  funext j
  by_cases h : j = a
  · subst h
    have h0 : swapVal 0 j j = 0 := (swapVal_eq_zero_iff j j).mpr rfl
    simp [setIdx, h0]
  · have h0 : ¬ swapVal 0 a j = 0 := by
      simpa [swapVal_eq_zero_iff] using h
    simp [setIdx, h0, h, swapVal_swapVal]

lemma length_applyPermList (p l : List Nat) :
    (applyPermList p l).length = p.length := by
  simp [applyPermList]

lemma getD_applyPermList (p l : List Nat) (j : Nat) (h : j < p.length) :
    (applyPermList p l).getD j 0 = l.getD (p.getD j 0) 0 := by
  have h2 : j < (applyPermList p l).length := by
    simpa [length_applyPermList] using h
  rw [List.getD_eq_getElem _ 0 h2, List.getD_eq_getElem _ 0 h]
  simp [applyPermList]

lemma applyPermList_permVec_getD (rank a : Nat) (l : List Nat)
    (j : Nat) (hj : j < rank) :
    (applyPermList (permVec rank a) l).getD j 0 = l.getD (swapVal 0 a j) 0 := by
  rw [getD_applyPermList _ _ j (by simpa [length_permVec] using hj),
    getD_permVec rank a j hj]

lemma applyPermList_permVec_involutive (rank a : Nat) (ha : a < rank)
    (l : List Nat) (hl : l.length = rank) :
    applyPermList (permVec rank a) (applyPermList (permVec rank a) l) = l := by
  apply List.ext_getElem
  · simp [length_applyPermList, length_permVec, hl]
  · intro i h1 h2
    have hi : i < rank := by omega
    have hswi : swapVal 0 a i < rank := swapVal_lt rank a i ha hi
    rw [← List.getD_eq_getElem _ 0 h1, ← List.getD_eq_getElem _ 0 h2,
      applyPermList_permVec_getD rank a _ i hi,
      applyPermList_permVec_getD rank a l (swapVal 0 a i) hswi,
      swapVal_swapVal]

/-! ### Characterizations of `validate` and `configure` -/

lemma softmaxValidate_def (isLog : Bool) (src dst : TensorInfo)
    (beta : FloatVal) (axis : Int) :
    softmaxValidate isLog src dst beta axis =
      if ¬ (0 ≤ axis ∧ axis < (src.rank : Int)) then .error .invalidAxis
      else if ¬ typeCompatible src dst then .error .typeMismatch
      else if src.shape ≠ dst.shape then .error .shapeMismatch
      else if ¬ beta.isFinite then .error .betaNonFinite
      else .OK := rfl

@[simp] lemma configuredStateOf_isLog (isLog : Bool) (src dst : TensorInfo)
    (beta : FloatVal) (axis : Int) :
    (configuredStateOf isLog src dst beta axis).isLog = isLog := rfl

@[simp] lemma configuredStateOf_beta (isLog : Bool) (src dst : TensorInfo)
    (beta : FloatVal) (axis : Int) :
    (configuredStateOf isLog src dst beta axis).beta = beta := rfl

@[simp] lemma configuredStateOf_axis (isLog : Bool) (src dst : TensorInfo)
    (beta : FloatVal) (axis : Int) :
    (configuredStateOf isLog src dst beta axis).axis = axis.toNat := rfl

@[simp] lemma configuredStateOf_needsPermute (isLog : Bool)
    (src dst : TensorInfo) (beta : FloatVal) (axis : Int) :
    (configuredStateOf isLog src dst beta axis).needsPermute =
      decide (axis.toNat ≠ 0) := rfl

@[simp] lemma configuredStateOf_permVectorInput (isLog : Bool)
    (src dst : TensorInfo) (beta : FloatVal) (axis : Int) :
    (configuredStateOf isLog src dst beta axis).permVectorInput =
      permVec src.rank axis.toNat := rfl

@[simp] lemma configuredStateOf_permVectorOutput (isLog : Bool)
    (src dst : TensorInfo) (beta : FloatVal) (axis : Int) :
    (configuredStateOf isLog src dst beta axis).permVectorOutput =
      permVec src.rank axis.toNat := rfl

@[simp] lemma configuredStateOf_maxInfo (isLog : Bool) (src dst : TensorInfo)
    (beta : FloatVal) (axis : Int) :
    (configuredStateOf isLog src dst beta axis).maxInfo =
      ⟨src.dataType,
        (applyPermList (permVec src.rank axis.toNat) src.shape).set 0 1⟩ := rfl

@[simp] lemma configuredStateOf_inputPermuted (isLog : Bool)
    (src dst : TensorInfo) (beta : FloatVal) (axis : Int) :
    (configuredStateOf isLog src dst beta axis).inputPermuted =
      if decide (axis.toNat ≠ 0) then
        some ⟨src.dataType, applyPermList (permVec src.rank axis.toNat) src.shape⟩
      else none := rfl

@[simp] lemma configuredStateOf_outputPermuted (isLog : Bool)
    (src dst : TensorInfo) (beta : FloatVal) (axis : Int) :
    (configuredStateOf isLog src dst beta axis).outputPermuted =
      if decide (axis.toNat ≠ 0) then
        some ⟨dst.dataType, applyPermList (permVec src.rank axis.toNat) dst.shape⟩
      else none := rfl

lemma tensor_eq_of_parts {t1 t2 : Tensor} (h1 : t1.shape = t2.shape)
    (h2 : t1.data = t2.data) : t1 = t2 := by
  cases t1; cases t2
  cases h1; cases h2
  rfl

/-! ### Concrete sample inputs -/

/-- A concrete 2x3 F32 source descriptor. -/
def srcA : TensorInfo := ⟨.F32, [2, 3]⟩

/-- The state configured from `srcA` with `beta = 1` and `axis = 1`. -/
def stA : ConfiguredState := configuredStateOf false srcA srcA (.finite 1) 1

/-- The state configured from `srcA` with `beta = 1` and `axis = 0`. -/
def stA0 : ConfiguredState := configuredStateOf false srcA srcA (.finite 1) 0

/-- A concrete runtime tensor matching `srcA`. -/
noncomputable def tenA : Tensor := ⟨[2, 3], fun _ => 0⟩

lemma validate_ok_iff (isLog : Bool) (src dst : TensorInfo) (beta : FloatVal)
    (axis : Int) :
    softmaxValidate isLog src dst beta axis = .OK ↔
      (0 ≤ axis ∧ axis < (src.rank : Int)) ∧ typeCompatible src dst = true ∧
        src.shape = dst.shape ∧ beta.isFinite = true := by
  unfold softmaxValidate
  split_ifs with h1 h2 h3 h4 <;> simp_all

lemma configure_ok_elim {isLog : Bool} {src dst : TensorInfo} {beta : FloatVal}
    {axis : Int} {st : ConfiguredState} {s d : TensorInfo}
    (h : softmaxConfigure isLog src dst beta axis = .ok (st, s, d)) :
    softmaxValidate isLog src dst beta axis = .OK ∧
      st = configuredStateOf isLog src dst beta axis ∧ s = src ∧ d = dst := by
  cases hv : softmaxValidate isLog src dst beta axis with
  | OK =>
    rw [softmaxConfigure, hv] at h
    simp only [Except.ok.injEq, Prod.mk.injEq] at h
    exact ⟨rfl, h.1.symm, h.2.1.symm, h.2.2.symm⟩
  | error r =>
    rw [softmaxConfigure, hv] at h
    simp at h

/-! ### The pipeline realizes the axis-general formula -/

lemma axis0_pipeline (isLog : Bool) (b : ℝ) (t : Tensor) :
    normalizeRun isLog b t (maxReduceRun t) = softmaxSpecFormula isLog b 0 t := by
  apply tensor_eq_of_parts
  · rfl
  · funext idx
    simp only [normalizeRun, maxReduceRun, softmaxSpecFormula, setIdx_setIdx_same]

lemma permuted_pipeline (isLog : Bool) (b : ℝ) (rank a : Nat) (ha : a < rank)
    (t : Tensor) (hl : t.shape.length = rank) :
    permuteRun (permVec rank a)
      (normalizeRun isLog b (permuteRun (permVec rank a) t)
        (maxReduceRun (permuteRun (permVec rank a) t))) =
      softmaxSpecFormula isLog b a t := by
  have hrank : 0 < rank := by omega
  have hspdata : ∀ X : Nat → Nat, (permuteRun (permVec rank a) t).data X
      = t.data fun j => X (swapVal 0 a j) := by
    intro X
    show t.data (permIdx (permVec rank a) X) = _
    rw [permIdx_permVec rank a ha X]
  have hspshape : (permuteRun (permVec rank a) t).shape
      = applyPermList (permVec rank a) t.shape := rfl
  have hn : (applyPermList (permVec rank a) t.shape).getD 0 0
      = t.shape.getD a 0 := by
    rw [applyPermList_permVec_getD rank a t.shape 0 hrank]
    norm_num [swapVal]
  apply tensor_eq_of_parts
  · show applyPermList (permVec rank a)
        (applyPermList (permVec rank a) t.shape) = t.shape
    exact applyPermList_permVec_involutive rank a ha t.shape hl
  · funext idx
    show (normalizeRun isLog b (permuteRun (permVec rank a) t)
        (maxReduceRun (permuteRun (permVec rank a) t))).data
          (permIdx (permVec rank a) idx) =
      (softmaxSpecFormula isLog b a t).data idx
    rw [permIdx_permVec rank a ha idx]
    simp only [normalizeRun, maxReduceRun, softmaxSpecFormula, hspdata,
      hspshape, hn, setIdx_setIdx_same, setIdx_comp_swap, swapVal_swapVal]

/-! ### Claim theorems -/

/-- Claim C1: for every source descriptor, destination descriptor, `beta`
and `axis`, `validate(src, dst, beta, axis)` returns OK if and only if
`configure(src, dst, beta, axis)` on a fresh operator instance succeeds:
the two paths reach the same accept/reject decision. -/
theorem validate_ok_iff_configure_succeeds (isLog : Bool)
    (src dst : TensorInfo) (beta : FloatVal) (axis : Int) :
    softmaxValidate isLog src dst beta axis = .OK ↔
      configureSucceeds isLog src dst beta axis = true := by
  cases hv : softmaxValidate isLog src dst beta axis <;>
    simp [configureSucceeds, softmaxConfigure, hv]

/-- Closed instance of the claim C1 theorem at a concrete accepted input. -/
theorem validate_ok_iff_configure_succeeds_witness :
    configureSucceeds false srcA srcA (.finite 1) 1 = true :=
  (validate_ok_iff_configure_succeeds false srcA srcA (.finite 1) 1).mp
    (by decide)

/-- Claim C6: `validate` returns OK only when `0 ≤ axis < rank(src)`, and
for every axis outside that range (every negative axis included) it
returns the structured invalid-axis error, `configure` failing with the
same status. -/
theorem validate_rejects_invalid_axis (isLog : Bool) (src dst : TensorInfo)
    (beta : FloatVal) (axis : Int) :
    (softmaxValidate isLog src dst beta axis = .OK →
      0 ≤ axis ∧ axis < (src.rank : Int)) ∧
    (axis < 0 ∨ (src.rank : Int) ≤ axis →
      softmaxValidate isLog src dst beta axis = .error .invalidAxis ∧
        softmaxConfigure isLog src dst beta axis =
          .error (.error .invalidAxis)) := by
  constructor
  · intro h
    exact ((validate_ok_iff isLog src dst beta axis).mp h).1
  · intro h
    have hcond : ¬ (0 ≤ axis ∧ axis < (src.rank : Int)) := by omega
    have hv : softmaxValidate isLog src dst beta axis = .error .invalidAxis := by
      rw [softmaxValidate_def, if_pos hcond]
    exact ⟨hv, by rw [softmaxConfigure, hv]⟩

/-- Closed instance of the claim C6 theorem at a concrete negative axis. -/
theorem validate_rejects_invalid_axis_witness :
    softmaxValidate false srcA srcA (.finite 1) (-1) = .error .invalidAxis ∧
      softmaxConfigure false srcA srcA (.finite 1) (-1) =
        .error (.error .invalidAxis) :=
  (validate_rejects_invalid_axis false srcA srcA (.finite 1) (-1)).2
    (by decide)

/-- Claim C7: for every non-finite `beta` (NaN or an infinity) `validate`
reports a configuration error as a structured status and `configure`
does not succeed, while for every finite `beta` (any sign, zero
included) the value of `beta` never affects the validation decision, so
`beta` alone never causes rejection. -/
theorem beta_finiteness_checked (isLog : Bool) (src dst : TensorInfo)
    (beta : FloatVal) (axis : Int) :
    (beta.isFinite = false →
      (∃ r, softmaxValidate isLog src dst beta axis = .error r) ∧
        configureSucceeds isLog src dst beta axis = false) ∧
    (beta.isFinite = true → ∀ beta2 : FloatVal, beta2.isFinite = true →
      softmaxValidate isLog src dst beta axis =
        softmaxValidate isLog src dst beta2 axis) := by
  constructor
  · intro hb
    have hne : softmaxValidate isLog src dst beta axis ≠ .OK := by
      intro h
      have hfin := ((validate_ok_iff isLog src dst beta axis).mp h).2.2.2
      rw [hb] at hfin
      exact Bool.false_ne_true hfin
    cases hv : softmaxValidate isLog src dst beta axis with
    | OK => exact absurd hv hne
    | error r =>
      exact ⟨⟨r, rfl⟩, by simp [configureSucceeds, softmaxConfigure, hv]⟩
  · intro hb beta2 hb2
    rw [softmaxValidate_def, softmaxValidate_def, hb, hb2]

/-- Closed instance of the claim C7 theorem at a NaN `beta`. -/
theorem beta_finiteness_checked_witness :
    (∃ r, softmaxValidate false srcA srcA .nan 0 = .error r) ∧
      configureSucceeds false srcA srcA .nan 0 = false :=
  (beta_finiteness_checked false srcA srcA .nan 0).1 (by decide)

/-- Claim C8: `configure` never modifies the source descriptor (taken
through a const pointer): the caller-visible source descriptor after a
successful `configure` equals the one passed in, the destination
descriptor being the only caller-visible descriptor the call may write. -/
theorem configure_preserves_src (isLog : Bool) (src dst : TensorInfo)
    (beta : FloatVal) (axis : Int) (st : ConfiguredState) (s d : TensorInfo)
    (h : softmaxConfigure isLog src dst beta axis = .ok (st, s, d)) :
    s = src :=
  (configure_ok_elim h).2.2.1

/-- Closed instance of the claim C8 theorem at a concrete configuration. -/
theorem configure_preserves_src_witness : srcA = srcA :=
  configure_preserves_src false srcA srcA (.finite 1) 1 stA srcA srcA rfl

/-- Claim C9: `workspace` is a const operation: iterating the call any
number of times leaves every field of the configuration state unchanged,
and a repeated call on the resulting instance returns the same
requirement list as the first call. -/
theorem workspace_is_const (st : ConfiguredState) (n : Nat) :
    (fun s => (softmaxWorkspaceCall s).2)^[n] st = st ∧
      (softmaxWorkspaceCall ((fun s => (softmaxWorkspaceCall s).2)^[n] st)).1 =
        (softmaxWorkspaceCall st).1 := by
  have hid : (fun s : ConfiguredState => (softmaxWorkspaceCall s).2) = id := rfl
  rw [hid, Function.iterate_id]
  exact ⟨rfl, rfl⟩

/-- Claim C10: the softmax (`IS_LOG = false`) and the log-softmax
(`IS_LOG = true`) instances of the one class template reach the same
validate/configure accept decision on every argument list, make the same
`needs_permute` choice, report identical workspace requirements, and
their configuration states differ only in the variant flag (so only the
normalization formula differs). -/
theorem variants_agree_on_orchestration (src dst : TensorInfo)
    (beta : FloatVal) (axis : Int) :
    softmaxValidate false src dst beta axis =
        softmaxValidate true src dst beta axis ∧
      configureSucceeds false src dst beta axis =
        configureSucceeds true src dst beta axis ∧
      (configuredStateOf false src dst beta axis).needsPermute =
        (configuredStateOf true src dst beta axis).needsPermute ∧
      softmaxWorkspace (configuredStateOf false src dst beta axis) =
        softmaxWorkspace (configuredStateOf true src dst beta axis) ∧
      configuredStateOf true src dst beta axis =
        { configuredStateOf false src dst beta axis with isLog := true } := by
  have h2 : configureSucceeds false src dst beta axis =
      configureSucceeds true src dst beta axis := by
    have hv : softmaxValidate true src dst beta axis =
        softmaxValidate false src dst beta axis := rfl
    cases hvf : softmaxValidate false src dst beta axis <;>
      simp [configureSucceeds, softmaxConfigure, hvf, hv.trans hvf]
  exact ⟨rfl, h2, rfl, rfl, rfl⟩

/-- Claim C3: an operator configured with `axis = 0` reports a workspace
holding only the max-buffer requirement (no permuted-input, no
permuted-output, nothing else); configured with `axis != 0` it reports
exactly the max-buffer, permuted-input and permuted-output requirements. -/
theorem workspace_requirement_roles (isLog : Bool) (src dst : TensorInfo)
    (beta : FloatVal) (axis : Int) (st : ConfiguredState) (s d : TensorInfo)
    (hcfg : softmaxConfigure isLog src dst beta axis = .ok (st, s, d)) :
    (axis = 0 →
      softmaxWorkspace st =
        [⟨.MaxBuf, byteSize st.maxInfo, vectorAlignment⟩]) ∧
    (axis ≠ 0 →
      (softmaxWorkspace st).map MemRequirement.role =
        [.MaxBuf, .PermutedInput, .PermutedOutput]) := by
  obtain ⟨hv, hst, -, -⟩ := configure_ok_elim hcfg
  have h0 : 0 ≤ axis := ((validate_ok_iff isLog src dst beta axis).mp hv).1.1
  subst hst
  constructor
  · intro h
    subst h
    simp [softmaxWorkspace]
  · intro h
    have hne : axis.toNat ≠ 0 := by omega
    simp [softmaxWorkspace, hne]

/-- Closed instance of the claim C3 theorem at a concrete `axis = 1`. -/
theorem workspace_requirement_roles_witness :
    (softmaxWorkspace stA).map MemRequirement.role =
      [.MaxBuf, .PermutedInput, .PermutedOutput] :=
  (workspace_requirement_roles false srcA srcA (.finite 1) 1 stA srcA srcA
    rfl).2 (by decide)

/-- Claim C4: for every valid configuration with `axis != 0`, the
permutation vector used by the input-side and the output-side permuter is
one and the same vector, it is the single transposition `swap(0, axis)` —
entry 0 holds `axis`, entry `axis` holds 0, and every other entry is the
identity, so it is no cyclic rotation — and it is self-inverse: applying
it twice restores any list of the rank of the source. -/
theorem permutation_is_single_transposition (isLog : Bool)
    (src dst : TensorInfo) (beta : FloatVal) (axis : Int)
    (st : ConfiguredState) (s d : TensorInfo)
    (hcfg : softmaxConfigure isLog src dst beta axis = .ok (st, s, d))
    (_haxis : axis ≠ 0) :
    st.permVectorInput = st.permVectorOutput ∧
      st.permVectorInput.length = src.rank ∧
      st.permVectorInput.getD 0 0 = axis.toNat ∧
      st.permVectorInput.getD axis.toNat 0 = 0 ∧
      (∀ j, j < src.rank → j ≠ 0 → j ≠ axis.toNat →
        st.permVectorInput.getD j 0 = j) ∧
      ∀ l : List Nat, l.length = src.rank →
        applyPermList st.permVectorInput (applyPermList st.permVectorInput l)
          = l := by
  obtain ⟨hv, hst, -, -⟩ := configure_ok_elim hcfg
  obtain ⟨h0, hlt⟩ := ((validate_ok_iff isLog src dst beta axis).mp hv).1
  subst hst
  have hax : axis.toNat < src.rank := by omega
  have hrank : 0 < src.rank := by omega
  rw [configuredStateOf_permVectorInput, configuredStateOf_permVectorOutput]
  refine ⟨rfl, length_permVec _ _, ?_, ?_, ?_, ?_⟩
  · rw [getD_permVec _ _ 0 hrank]
    unfold swapVal; split_ifs <;> omega
  · rw [getD_permVec _ _ _ hax]
    unfold swapVal; split_ifs <;> omega
  · intro j hj hj0 hja
    rw [getD_permVec _ _ j hj]
    unfold swapVal; split_ifs <;> omega
  · intro l hl
    exact applyPermList_permVec_involutive _ _ hax l hl

/-- Closed instance of the claim C4 theorem at `axis = 1` on a rank-2
source. -/
theorem permutation_is_single_transposition_witness :
    stA.permVectorInput = stA.permVectorOutput ∧
      stA.permVectorInput.length = srcA.rank ∧
      stA.permVectorInput.getD 0 0 = Int.toNat 1 ∧
      stA.permVectorInput.getD (Int.toNat 1) 0 = 0 ∧
      (∀ j, j < srcA.rank → j ≠ 0 → j ≠ Int.toNat 1 →
        stA.permVectorInput.getD j 0 = j) ∧
      ∀ l : List Nat, l.length = srcA.rank →
        applyPermList stA.permVectorInput (applyPermList stA.permVectorInput l)
          = l :=
  permutation_is_single_transposition false srcA srcA (.finite 1) 1 stA
    srcA srcA rfl (by decide)

/-- Claim C5: after `configure(src, dst, beta, axis)`, `needs_permute`
holds iff `axis != 0`, and `run` executes exactly the fixed sequence:
permute the source into the permuted-input iff `needs_permute`,
max-reduce over axis 0 of the (possibly permuted) source, normalize into
the (possibly permuted) output, and permute that output into the
destination iff `needs_permute`. -/
theorem needs_permute_and_run_sequence (isLog : Bool) (src dst : TensorInfo)
    (beta : FloatVal) (axis : Int) (st : ConfiguredState) (s d : TensorInfo)
    (hcfg : softmaxConfigure isLog src dst beta axis = .ok (st, s, d)) :
    (st.needsPermute = true ↔ axis ≠ 0) ∧
      ∀ t : Tensor,
        (softmaxRunT st t).2 =
          (if st.needsPermute then
            [RunStep.permuteInput, RunStep.maxReduceStep,
              RunStep.normalizeStep, RunStep.permuteOutput]
          else [RunStep.maxReduceStep, RunStep.normalizeStep]) ∧
        (softmaxRunT st t).1 =
          if st.needsPermute then
            permuteRun st.permVectorOutput
              (normalizeRun st.isLog st.beta.toReal
                (permuteRun st.permVectorInput t)
                (maxReduceRun (permuteRun st.permVectorInput t)))
          else normalizeRun st.isLog st.beta.toReal t (maxReduceRun t) := by
  obtain ⟨hv, hst, -, -⟩ := configure_ok_elim hcfg
  have h0 : 0 ≤ axis := ((validate_ok_iff isLog src dst beta axis).mp hv).1.1
  subst hst
  constructor
  · simp only [configuredStateOf_needsPermute, decide_eq_true_eq]
    omega
  · intro t
    by_cases hA : axis.toNat = 0
    · have hlt : ¬ (0 : Int) < axis := by omega
      constructor <;> simp [softmaxRunT, hlt]
    · have hlt : (0 : Int) < axis := by omega
      constructor <;> simp [softmaxRunT, hlt]

/-- Closed instance of the claim C5 theorem at a concrete `axis = 1`
configuration and input tensor. -/
theorem needs_permute_and_run_sequence_witness :
    (stA.needsPermute = true ↔ (1 : Int) ≠ 0) ∧
      ∀ t : Tensor,
        (softmaxRunT stA t).2 =
          (if stA.needsPermute then
            [RunStep.permuteInput, RunStep.maxReduceStep,
              RunStep.normalizeStep, RunStep.permuteOutput]
          else [RunStep.maxReduceStep, RunStep.normalizeStep]) ∧
        (softmaxRunT stA t).1 =
          if stA.needsPermute then
            permuteRun stA.permVectorOutput
              (normalizeRun stA.isLog stA.beta.toReal
                (permuteRun stA.permVectorInput t)
                (maxReduceRun (permuteRun stA.permVectorInput t)))
          else normalizeRun stA.isLog stA.beta.toReal t (maxReduceRun t) :=
  needs_permute_and_run_sequence false srcA srcA (.finite 1) 1 stA srcA srcA
    rfl

/-- Claim C2: for every validly configured operator and every input tensor
of the configured shape, `run` produces per output element `x` at
position `(i, rest)` along the reduced axis, with `max(rest)` the
per-vector maximum over the reduction axis:
softmax `out = exp((x - max(rest)) * beta) / sum_i exp((x_i - max(rest)) * beta)`,
log-softmax `out = (x - max(rest)) * beta - log(sum_i exp((x_i - max(rest)) * beta))`
— i.e. the permute / max-reduce / normalize / permute-back pipeline
equals the axis-general formula stated by the specification. -/
theorem run_computes_spec_formula (isLog : Bool) (src dst : TensorInfo)
    (beta : FloatVal) (axis : Int) (st : ConfiguredState) (s d : TensorInfo)
    (hcfg : softmaxConfigure isLog src dst beta axis = .ok (st, s, d))
    (t : Tensor) (ht : t.shape = src.shape) :
    softmaxRun st t = softmaxSpecFormula st.isLog st.beta.toReal st.axis t := by
  obtain ⟨hv, hst, -, -⟩ := configure_ok_elim hcfg
  obtain ⟨h0, hlt⟩ := ((validate_ok_iff isLog src dst beta axis).mp hv).1
  subst hst
  have hax : axis.toNat < src.rank := by omega
  by_cases hA : axis.toNat = 0
  · have hltz : ¬ (0 : Int) < axis := by omega
    have hrun : softmaxRun (configuredStateOf isLog src dst beta axis) t =
        normalizeRun isLog beta.toReal t (maxReduceRun t) := by
      simp [softmaxRun, softmaxRunT, hltz]
    rw [hrun]
    simp only [configuredStateOf_isLog, configuredStateOf_beta,
      configuredStateOf_axis, hA]
    exact axis0_pipeline isLog beta.toReal t
  · have hgtz : (0 : Int) < axis := by omega
    have hrun : softmaxRun (configuredStateOf isLog src dst beta axis) t =
        permuteRun (permVec src.rank axis.toNat)
          (normalizeRun isLog beta.toReal
            (permuteRun (permVec src.rank axis.toNat) t)
            (maxReduceRun (permuteRun (permVec src.rank axis.toNat) t))) := by
      simp [softmaxRun, softmaxRunT, hgtz]
    rw [hrun]
    simp only [configuredStateOf_isLog, configuredStateOf_beta,
      configuredStateOf_axis]
    exact permuted_pipeline isLog beta.toReal src.rank axis.toNat hax t
      (by rw [ht]; rfl)

/-- Closed instance of the claim C2 theorem at a concrete `axis = 1`
configuration and a concrete input tensor. -/
theorem run_computes_spec_formula_witness :
    softmaxRun stA tenA =
      softmaxSpecFormula stA.isLog stA.beta.toReal stA.axis tenA :=
  run_computes_spec_formula false srcA srcA (.finite 1) 1 stA srcA srcA rfl
    tenA rfl

end CpuSoftmax
